import Mathlib

/-!
Shallow embedding of the KStore local-first point-of-sale application
(offline sync queue, optimistic store, and the stock/balance logic), used to
check the natural-language specification against the TypeScript sources.

Conventions of the embedding:
* JavaScript numbers holding money are modelled as rationals (ℚ); quantities,
  stock counts and millisecond timestamps are modelled as integers.
* Invoice status literals ('paid' | 'partial' | 'unpaid') stay strings.
* IndexedDB object stores are modelled as lists of records in insertion
  order; `getAll` returns the records in ascending key order, which for the
  pending-items store (keyPath `id`) is lexicographic order of the id string.
* `fetch` calls are summarised by a `GatewayCall` record; an oracle
  `server : PendingItem → Bool` supplies each response's `ok` flag.
-/

namespace KStore

/-- Product record (shape shared by all database/store variants). -/
structure Product where
  id : String
  barcode : Option String := none
  name : String := ""
  description : Option String := none
  category : Option String := none
  costPrice : ℚ := 0
  sellingPrice : ℚ := 0
  stock : Int := 0
  minStock : Int := 0
  unit : String := ""
  createdAt : String := ""
  updatedAt : String := ""
deriving DecidableEq, Repr

/-- Invoice line item; denormalised snapshot taken at sale time.
The TS field `id` is called `itemId` here to avoid clashing with accessors. -/
structure InvoiceItem where
  itemId : String := ""
  productId : String
  productName : String := ""
  barcode : Option String := none
  quantity : Int := 0
  unitPrice : ℚ := 0
  totalPrice : ℚ := 0
  costPrice : ℚ := 0
deriving DecidableEq, Repr

/-- Invoice record. -/
structure Invoice where
  id : String
  customerId : Option String := none
  customerName : String := ""
  items : List InvoiceItem := []
  subtotal : ℚ := 0
  discount : ℚ := 0
  total : ℚ := 0
  paidAmount : ℚ := 0
  remainingBalance : ℚ := 0
  status : String := "unpaid"
  paymentMethod : String := "cash"
  notes : String := ""
  createdAt : String := ""
  updatedAt : String := ""
  synced : Bool := false
deriving DecidableEq, Repr

/-- The `Omit<Invoice, 'id' | 'createdAt' | 'updatedAt' | 'synced'>` payload
handed to the various createInvoice/addInvoice entry points. -/
structure InvoiceInput where
  customerId : Option String := none
  customerName : String := ""
  items : List InvoiceItem := []
  subtotal : ℚ := 0
  discount : ℚ := 0
  total : ℚ := 0
  paidAmount : ℚ := 0
  remainingBalance : ℚ := 0
  status : String := "unpaid"
  paymentMethod : String := "cash"
  notes : String := ""
deriving DecidableEq, Repr

/-- Customer record (part_006 IndexedDB variant). -/
structure Customer where
  id : String
  name : String := ""
  phone : String := ""
  balance : ℚ := 0
  totalPurchases : Int := 0
  totalItems : Int := 0
  createdAt : String := ""
  updatedAt : String := ""
deriving DecidableEq, Repr

/-- IndexedDB `store.put` with `keyPath: 'id'`: replace the record carrying
the same key if one exists, otherwise append. -/
def putByKey (getId : α → String) (x : α) (l : List α) : List α :=
  if l.any (fun y => getId y == getId x) then
    l.map (fun y => if getId y == getId x then x else y)
  else l ++ [x]

/-- part_006 `updateProductStock`: look the product up by id and add
`quantity` (which is negative for a sale) to its stock. -/
def updateProductStock6 (products : List Product) (productId : String)
    (quantity : Int) (now : String) : List Product :=
  match products.find? (fun p => p.id == productId) with
  | none => products
  | some product =>
      putByKey Product.id
        { product with stock := product.stock + quantity, updatedAt := now } products

/-- part_006 `createInvoice` (browser IndexedDB database): computes
`remainingBalance = total - paidAmount` (unclamped) and the status string,
stores the invoice, deducts stock for every item and updates the customer.
Returns the new products store, customers store, invoices store and the
stored invoice. -/
def createInvoice6 (products : List Product) (customers : List Customer)
    (invoices : List Invoice) (invoice : InvoiceInput) (id now : String) :
    List Product × List Customer × List Invoice × Invoice :=
  let remainingBalance := invoice.total - invoice.paidAmount
  let status : String :=
    if remainingBalance ≤ 0 then "paid"
    else if invoice.paidAmount > 0 then "partial" else "unpaid"
  let newInvoice : Invoice :=
    { id := id
      customerId := invoice.customerId
      customerName := invoice.customerName
      items := invoice.items
      subtotal := invoice.subtotal
      discount := invoice.discount
      total := invoice.total
      paidAmount := invoice.paidAmount
      remainingBalance := remainingBalance
      status := status
      paymentMethod := invoice.paymentMethod
      notes := invoice.notes
      createdAt := now
      updatedAt := now
      synced := false }
  let products1 := invoice.items.foldl
    (fun ps item => updateProductStock6 ps item.productId (-item.quantity) now) products
  let customers1 :=
    match invoice.customerId with
    | none => customers
    | some cid =>
        match customers.find? (fun c => c.id == cid) with
        | none => customers
        | some customer =>
            putByKey Customer.id
              { customer with
                  balance := customer.balance + remainingBalance
                  totalPurchases := customer.totalPurchases + 1
                  totalItems := customer.totalItems + (invoice.items.map (·.quantity)).sum
                  updatedAt := now } customers
  (products1, customers1, putByKey Invoice.id newInvoice invoices, newInvoice)

/-- CartPanel `handleCheckout` derived payment fields: the clamped
remaining balance and the status it sends along with the invoice. -/
def handleCheckoutFields (total paidAmount : ℚ) : ℚ × ℚ × String :=
  let finalPaidAmount := if paidAmount > 0 then paidAmount else total
  let remainingBalance := max 0 (total - finalPaidAmount)
  let status : String := if remainingBalance ≤ 0 then "paid" else "partial"
  (finalPaidAmount, remainingBalance, status)

/-- lib/db/database.ts `updateInvoicePayment`: looks the invoice up in the
fetched list, computes the would-be new fields, and returns `false`
unconditionally (the required update endpoint does not exist). -/
def updateInvoicePaymentModel (invoices : List Invoice) (id : String)
    (paidAmount : ℚ) : Bool :=
  match invoices.find? (fun inv => inv.id == id) with
  | none => false
  | some invoice =>
      let newPaidAmount := invoice.paidAmount + paidAmount
      let remainingBalance := invoice.total - newPaidAmount
      let _status : String :=
        if remainingBalance ≤ 0 then "paid"
        else if remainingBalance < invoice.total then "partial" else "unpaid"
      false

/-- Slice of the zustand global store state touched by the modelled actions
(both the part_008 variant and lib/stores/global-store.ts). -/
structure StoreState where
  products : List Product := []
  invoices : List Invoice := []
  lowStockProducts : List Product := []
  todayRevenue : ℚ := 0
  todayProfit : ℚ := 0
  todayItems : Int := 0
  todayInvoices : Int := 0
  totalDebt : ℚ := 0
deriving DecidableEq, Repr

/-- `products.filter(p => p.stock <= p.minStock)`. -/
def lowStockOf (products : List Product) : List Product :=
  products.filter (fun p => decide (p.stock ≤ p.minStock))

/-- Result of the parallel fetches performed by part_008 `loadData`; only the
product and invoice lists feed the protected merge (`none` models a missing
array). -/
structure FetchedData where
  products : Option (List Product) := none
  invoices : Option (List Invoice) := none
deriving DecidableEq, Repr

/-- part_008 `loadData` state update: fetched lists replace the current ones
only when they are non-empty ("PROTECTION: Don't overwrite existing data
with empty arrays"); low stock is recomputed from the kept products. -/
def loadDataModel (s : StoreState) (f : FetchedData) : StoreState :=
  let safeProducts :=
    match f.products with
    | some ps => if ps.length > 0 then ps else s.products
    | none => s.products
  let safeInvoices :=
    match f.invoices with
    | some invs => if invs.length > 0 then invs else s.invoices
    | none => s.invoices
  { s with
      products := safeProducts
      invoices := safeInvoices
      lowStockProducts := lowStockOf safeProducts }

/-- lib/stores/global-store.ts `updateInvoice`: forwards to
`updateInvoicePayment` over the fetched invoice list and reloads data only on
success. Returns the success flag and the resulting store state. -/
def storeUpdateInvoice (s : StoreState) (fetchedInvoices : List Invoice)
    (id : String) (paidAmount : ℚ) (f : FetchedData) : Bool × StoreState :=
  let success := updateInvoicePaymentModel fetchedInvoices id paidAmount
  if success then (success, loadDataModel s f) else (success, s)

/-- The local invoice part_008 `addInvoice` builds before trying the API. -/
def localInvoiceOf (invoice : InvoiceInput) (localId now : String) : Invoice :=
  { id := localId
    customerId := invoice.customerId
    customerName := invoice.customerName
    items := invoice.items
    subtotal := invoice.subtotal
    discount := invoice.discount
    total := invoice.total
    paidAmount := invoice.paidAmount
    remainingBalance := invoice.remainingBalance
    status := invoice.status
    paymentMethod := invoice.paymentMethod
    notes := invoice.notes
    createdAt := now
    updatedAt := now
    synced := false }

/-- `invoice.items.find(item => item.productId === p.id)` followed by
`stock: p.stock - invoiceItem.quantity` (part_008 `addInvoice`, step 2). -/
def deductStock (items : List InvoiceItem) (p : Product) : Product :=
  match items.find? (fun item => item.productId == p.id) with
  | some invoiceItem => { p with stock := p.stock - invoiceItem.quantity }
  | none => p

/-- `invoice?.items.find(item => item.productId === p.id)` followed by
`stock: p.stock + invoiceItem.quantity` (part_008 `removeInvoice`). -/
def restoreStock (items : List InvoiceItem) (p : Product) : Product :=
  match items.find? (fun item => item.productId == p.id) with
  | some invoiceItem => { p with stock := p.stock + invoiceItem.quantity }
  | none => p

/-- part_008 `addInvoice`, steps 1-2: append the local invoice, deduct stock
locally and bump the day counters, before any API call is attempted. -/
def addInvoiceApply (s : StoreState) (invoice : InvoiceInput)
    (localId now : String) : StoreState :=
  let localInvoice := localInvoiceOf invoice localId now
  let products := s.products.map (deductStock invoice.items)
  { s with
      products := products
      invoices := s.invoices ++ [localInvoice]
      lowStockProducts := lowStockOf products
      todayRevenue := s.todayRevenue + localInvoice.total
      todayItems := s.todayItems + (invoice.items.map (·.quantity)).sum
      todayInvoices := s.todayInvoices + 1
      todayProfit := s.todayProfit +
        (invoice.items.map
          (fun item => (item.unitPrice - item.costPrice) * (item.quantity : ℚ))).sum -
        invoice.discount
      totalDebt := s.totalDebt + localInvoice.remainingBalance }

/-- part_008 `addInvoice`, step 3 success branch: replace the local invoice
with the server invoice (real id), marked synced. -/
def replaceLocalInvoice (s : StoreState) (localId : String) (srv : Invoice) :
    StoreState :=
  { s with
      invoices := s.invoices.map
        (fun inv => if inv.id == localId then { srv with synced := true } else inv) }

/-- part_008 `addInvoice` in full. `apiResult` is `createInvoice`'s outcome
(`none`: offline/failed, the op is queued and the local invoice returned;
`some srv`: the local record is replaced by the server one). Returns the new
state and the invoice returned to the caller. -/
def addInvoiceModel (s : StoreState) (invoice : InvoiceInput)
    (localId now : String) (apiResult : Option Invoice) : StoreState × Invoice :=
  let s1 := addInvoiceApply s invoice localId now
  match apiResult with
  | some srv => (replaceLocalInvoice s1 localId srv, srv)
  | none => (s1, localInvoiceOf invoice localId now)

/-- part_008 `removeInvoice`, step 1: look the invoice up, drop it from the
list and restore each item's quantity to the matching product's stock. -/
def removeInvoiceApply (s : StoreState) (id : String) : StoreState :=
  let invoice := s.invoices.find? (fun inv => inv.id == id)
  let invoices := s.invoices.filter (fun inv => inv.id != id)
  let products := s.products.map (fun p =>
    match invoice with
    | some inv => restoreStock inv.items p
    | none => p)
  { s with
      invoices := invoices
      products := products
      lowStockProducts := lowStockOf products }

/-!  Server-side JSON file database (src/lib/server/database.ts).  -/

/-- `findIndex` followed by an in-place assignment at the found index:
update the first element satisfying `pred`, keep the rest. -/
def updateFirstBy (pred : α → Bool) (f : α → α) : List α → List α
  | [] => []
  | x :: xs => if pred x then f x :: xs else x :: updateFirstBy pred f xs

/-- server `updateInvoice`, "Restore old stock" loop: for each old item add
its quantity back to the first product with that id. -/
def restoreOldStock (products : List Product) (items : List InvoiceItem) :
    List Product :=
  items.foldl
    (fun ps oldItem =>
      updateFirstBy (fun p => p.id == oldItem.productId)
        (fun p => { p with stock := p.stock + oldItem.quantity }) ps)
    products

/-- server `updateInvoice`, "Deduct new stock" loop: for each new item
subtract its quantity from the first product with that id (also touching
`updatedAt`). -/
def deductNewStock (now : String) (products : List Product)
    (items : List InvoiceItem) : List Product :=
  items.foldl
    (fun ps newItem =>
      updateFirstBy (fun p => p.id == newItem.productId)
        (fun p => { p with stock := p.stock - newItem.quantity, updatedAt := now }) ps)
    products

/-- `Partial<Invoice>` restricted to the field the modelled code path
branches on (`updates.items`); `none` models an absent field. -/
structure InvoiceUpdates where
  items : Option (List InvoiceItem) := none
deriving DecidableEq, Repr

/-- server `updateInvoice`: find the invoice; if `updates.items` is present,
restore every old item quantity to stock and then deduct every new item
quantity; finally merge the updates into the stored invoice. Returns the
success flag, the new invoices file and the new products file. -/
def serverUpdateInvoice (invoices : List Invoice) (products : List Product)
    (id : String) (updates : InvoiceUpdates) (now : String) :
    Bool × List Invoice × List Product :=
  match invoices.find? (fun inv => inv.id == id) with
  | none => (false, invoices, products)
  | some oldInvoice =>
      let products1 :=
        match updates.items with
        | some newItems => deductNewStock now (restoreOldStock products oldInvoice.items) newItems
        | none => products
      let invoices1 := updateFirstBy (fun inv => inv.id == id)
        (fun inv =>
          { inv with items := updates.items.getD inv.items, updatedAt := now })
        invoices
      (true, invoices1, products1)

/-- Net quantity an item list books against product `pid`
(sum over the items referencing that product). -/
def sumQtyFor (items : List InvoiceItem) (pid : String) : Int :=
  ((items.filter (fun item => item.productId == pid)).map (·.quantity)).sum

/-!  Pending operation queue and Sync Replayer
(src/lib/hooks/use-offline-sync.ts).  -/

/-- `type: 'product' | 'invoice'` of a pending item. -/
inductive EntityKind
  | product
  | invoice
deriving DecidableEq, Repr

/-- `action: 'create' | 'update' | 'delete'` of a pending item. -/
inductive ActionKind
  | create
  | update
  | delete
deriving DecidableEq, Repr

/-- Projection of the untyped `data` payload onto the two fields `syncItem`
reads: `item.data.id` (absent on create payloads, which carry the entity
body without an id) and `item.data.isReturn`. -/
structure SyncData where
  dataId : Option String := none
  isReturn : Bool := false
deriving DecidableEq, Repr

/-- A record of the `pending_items` IndexedDB store. `id` is the generated
key `type_action_Date.now()_Math.random()`. -/
structure PendingItem where
  id : String
  type : EntityKind
  action : ActionKind
  data : SyncData := {}
  timestamp : Int := 0
  synced : Bool := false
deriving DecidableEq, Repr

/-- One `fetch` issued by `syncItem`, tagged with the pending item that
issued it. -/
structure GatewayCall where
  method : String
  url : String
  itemId : String
deriving DecidableEq, Repr

/-- `id?.startsWith('offline_')`: the id's characters begin with the
characters of `offline_` (stated over the character list so that it
evaluates inside the kernel). -/
def isOfflineId (s : String) : Bool := "offline_".data.isPrefixOf s.data

/-- `item.data.id?.startsWith('offline_')` (false when the payload has no
id). -/
def dataIdIsOffline (item : PendingItem) : Bool :=
  match item.data.dataId with
  | some s => isOfflineId s
  | none => false

/-- `syncItem`: which fetch (if any) the item issues and whether the item
counts as successfully synced. The oracle `server` supplies `response.ok`
for the single fetch an item can issue; a thrown network error is the same
as `ok = false` here (the catch returns false). Note there is no
invoice/update branch in the source: such items fall through to
`return false` without any request. -/
def syncItemModel (server : PendingItem → Bool) (item : PendingItem) :
    Option GatewayCall × Bool :=
  match item.type, item.action with
  | .product, .create =>
      (some ⟨"POST", "/api/products", item.id⟩, server item)
  | .product, .update =>
      if dataIdIsOffline item then (none, true)
      else (some ⟨"PUT", "/api/products", item.id⟩, server item)
  | .product, .delete =>
      if dataIdIsOffline item then (none, true)
      else (some ⟨"DELETE", "/api/products", item.id⟩, server item)
  | .invoice, .create =>
      (some ⟨"POST", "/api/invoices", item.id⟩, server item)
  | .invoice, .update => (none, false)
  | .invoice, .delete =>
      if item.data.isReturn then
        (some ⟨"PATCH", "/api/invoices?action=return", item.id⟩, server item)
      else if dataIdIsOffline item then (none, true)
      else (some ⟨"DELETE", "/api/invoices", item.id⟩, server item)

/-- `deletePendingItem`: remove the record with the given key. -/
def deleteById (x : String) (db : List PendingItem) : List PendingItem :=
  db.filter (fun item => item.id != x)

/-- Queue ordering by `timestamp` (the sort comparator
`a.timestamp - b.timestamp`). -/
def tsLE (a b : PendingItem) : Prop := a.timestamp ≤ b.timestamp

/-- Lexicographic comparison of character lists by code point: the order
IndexedDB uses on string keys (our generated ids are ASCII, where code
points and UTF-16 code units agree). -/
def charListLE : List Char → List Char → Bool
  | [], _ => true
  | _ :: _, [] => false
  | a :: as, b :: bs =>
      if a.toNat < b.toNat then true
      else if b.toNat < a.toNat then false
      else charListLE as bs

/-- IndexedDB key order on the `pending_items` store (keyPath `id`). -/
def keyLE (a b : PendingItem) : Prop :=
  charListLE a.id.data b.id.data = true

instance : DecidableRel tsLE :=
  fun a b => inferInstanceAs (Decidable (a.timestamp ≤ b.timestamp))

instance : DecidableRel keyLE :=
  fun a b => inferInstanceAs (Decidable (charListLE a.id.data b.id.data = true))

instance : IsTotal PendingItem tsLE :=
  ⟨fun a b => le_total a.timestamp b.timestamp⟩

instance : IsTrans PendingItem tsLE :=
  ⟨fun _ _ _ h1 h2 => le_trans h1 h2⟩

instance : IsTotal PendingItem keyLE where
  total a b := by
    show charListLE a.id.data b.id.data = true ∨
      charListLE b.id.data a.id.data = true
    generalize a.id.data = xs
    generalize b.id.data = ys
    induction xs generalizing ys with
    | nil => exact Or.inl rfl
    | cons x xs ih =>
        cases ys with
        | nil => exact Or.inr rfl
        | cons y ys =>
            simp only [charListLE]
            rcases Nat.lt_trichotomy x.toNat y.toNat with hlt | heq | hgt
            · left
              rw [if_pos hlt]
            · have h1 : ¬ x.toNat < y.toNat := by omega
              have h2 : ¬ y.toNat < x.toNat := by omega
              rw [if_neg h1, if_neg h2, if_neg h2, if_neg h1]
              exact ih ys
            · right
              rw [if_pos hgt]

instance : IsTrans PendingItem keyLE where
  trans a b c h1 h2 := by
    have key : ∀ (xs ys zs : List Char), charListLE xs ys = true →
        charListLE ys zs = true → charListLE xs zs = true := by
      intro xs
      induction xs with
      | nil => intro ys zs _ _; rfl
      | cons x xs ih =>
          intro ys zs hxy hyz
          cases ys with
          | nil => exact absurd hxy (by simp [charListLE])
          | cons y ys =>
              cases zs with
              | nil => exact absurd hyz (by simp [charListLE])
              | cons z zs =>
                  simp only [charListLE] at hxy hyz ⊢
                  rcases Nat.lt_trichotomy x.toNat y.toNat with h1 | h1 | h1
                  · rcases Nat.lt_trichotomy y.toNat z.toNat with h2 | h2 | h2
                    · rw [if_pos (by omega : x.toNat < z.toNat)]
                    · rw [if_pos (by omega : x.toNat < z.toNat)]
                    · rw [if_neg (by omega), if_pos h2] at hyz
                      exact absurd hyz Bool.false_ne_true
                  · rcases Nat.lt_trichotomy y.toNat z.toNat with h2 | h2 | h2
                    · rw [if_pos (by omega : x.toNat < z.toNat)]
                    · rw [if_neg (by omega : ¬ x.toNat < z.toNat),
                        if_neg (by omega : ¬ z.toNat < x.toNat)]
                      rw [if_neg (by omega), if_neg (by omega)] at hxy
                      rw [if_neg (by omega), if_neg (by omega)] at hyz
                      exact ih ys zs hxy hyz
                    · rw [if_neg (by omega), if_pos h2] at hyz
                      exact absurd hyz Bool.false_ne_true
                  · rw [if_neg (by omega), if_pos h1] at hxy
                    exact absurd hxy Bool.false_ne_true
    exact key a.id.data b.id.data c.id.data h1 h2

/-- `store.getAll()` on the pending-items store: records come back in
ascending key (id) order, not in insertion order. Modelled as a sort of the
insertion-ordered backing list; `List.insertionSort` inserts `a` before the
first `b` with `a ≼ b`, matching a stable sort. -/
def getAllModel (db : List PendingItem) : List PendingItem :=
  db.insertionSort keyLE

/-- `getUnsyncedItems`: `getAll`, filter `!synced`, then a stable
`sort((a, b) => a.timestamp - b.timestamp)`. -/
def getUnsyncedItemsModel (db : List PendingItem) : List PendingItem :=
  ((getAllModel db).filter (fun item => !item.synced)).insertionSort tsLE

/-- State threaded through one `syncPending` pass: the queue store, the
global store, the fetches issued so far, and `syncedCount`. -/
structure PassState where
  db : List PendingItem
  store : StoreState
  calls : List GatewayCall := []
  syncedCount : Nat := 0
deriving DecidableEq, Repr

/-- The `for (const item of unsyncedItems)` loop of `syncPending`: sync each
item; on success delete it from the queue and continue; on failure stop
draining ("items depend on order"). The optimistic store is not an input of
the loop body — nothing in it is rewritten. -/
def drainQueue (server : PendingItem → Bool) :
    List PendingItem → PassState → PassState
  | [], st => st
  | item :: rest, st =>
      if (syncItemModel server item).2 then
        drainQueue server rest
          { st with
              db := deleteById item.id st.db
              calls := st.calls ++ (syncItemModel server item).1.toList
              syncedCount := st.syncedCount + 1 }
      else { st with calls := st.calls ++ (syncItemModel server item).1.toList }

/-- `syncPending`: exit when offline; snapshot `getUnsyncedItems()` once;
drain; if at least one item synced, reload the store from the server
(`loadData`); finally `clearSyncedItems` purges records flagged synced. -/
def syncPendingModel (server : PendingItem → Bool) (online : Bool)
    (fetched : FetchedData) (s0 : StoreState) (db : List PendingItem) :
    PassState :=
  if !online then ⟨db, s0, [], 0⟩
  else
    let snapshot := getUnsyncedItemsModel db
    if snapshot.isEmpty then ⟨db, s0, [], 0⟩
    else
      let st := drainQueue server snapshot ⟨db, s0, [], 0⟩
      let st1 :=
        if st.syncedCount > 0 then { st with store := loadDataModel st.store fetched }
        else st
      { st1 with db := st1.db.filter (fun item => !item.synced) }

/-!  Interleaving model for concurrent `syncPending` invocations.

`syncPending` is an async function whose suspension points are its awaited
calls; the `online` event (after its 2 s settle delay), the 30-second
interval and the mount-time invocation can each start a new run while an
earlier one is parked at an `await`. Each run is modelled as a phase
machine; the micro-steps below correspond to the code segments between
suspension points. Calls are tagged with the index of the run that issued
them. -/

/-- Phase of one `syncPending` run: not started, holding the remaining part
of its `getUnsyncedItems()` snapshot, parked on an in-flight `syncItem`
fetch, or finished (returned / stopped on failure). -/
inductive PassPhase
  | idle
  | ready (rem : List PendingItem)
  | awaitCall (cur : PendingItem) (rem : List PendingItem)
  | halted
deriving DecidableEq, Repr

/-- Shared state of two potentially-overlapping `syncPending` runs. -/
structure TwoPassState where
  db : List PendingItem
  online : Bool := true
  calls : List (Nat × GatewayCall) := []
  p1 : PassPhase := .idle
  p2 : PassPhase := .idle
deriving DecidableEq, Repr

/-- Phase of run `i` (1 or 2). -/
def TwoPassState.phase (s : TwoPassState) (i : Nat) : PassPhase :=
  if i = 1 then s.p1 else s.p2

/-- Replace the phase of run `i`. -/
def TwoPassState.setPhase (s : TwoPassState) (i : Nat) (ph : PassPhase) :
    TwoPassState :=
  if i = 1 then { s with p1 := ph } else { s with p2 := ph }

/-- A trigger (connectivity-restore handler, 30 s timer tick or mount-time
call) entering `syncPending` for run `i`: return at once when offline or
when the snapshot is empty, otherwise keep the snapshot and start draining.
The code consults nothing else — in particular no "a pass is already
running" flag. -/
def stepTrigger (i : Nat) (s : TwoPassState) : TwoPassState :=
  match s.phase i with
  | .idle =>
      if !s.online then s.setPhase i .halted
      else
        let snapshot := getUnsyncedItemsModel s.db
        if snapshot.isEmpty then s.setPhase i .halted
        else s.setPhase i (.ready snapshot)
  | _ => s

/-- Run `i` takes the next snapshot entry: a call-issuing item sends its
fetch and parks awaiting the response; a vacuous offline-id item is deleted
and the loop continues; an unsupported item stops the run. An exhausted
snapshot ends the run. -/
def stepProcess (server : PendingItem → Bool) (i : Nat) (s : TwoPassState) :
    TwoPassState :=
  match s.phase i with
  | .ready [] => s.setPhase i .halted
  | .ready (item :: rest) =>
      match syncItemModel server item with
      | (some c, _) =>
          { s.setPhase i (.awaitCall item rest) with calls := s.calls ++ [(i, c)] }
      | (none, true) =>
          { s.setPhase i (.ready rest) with db := deleteById item.id s.db }
      | (none, false) => s.setPhase i .halted
  | _ => s

/-- The awaited response of run `i`'s in-flight fetch arrives: on success
delete the item from the queue and continue; on failure stop draining. -/
def stepResume (server : PendingItem → Bool) (i : Nat) (s : TwoPassState) :
    TwoPassState :=
  match s.phase i with
  | .awaitCall item rest =>
      if server item then
        { s.setPhase i (.ready rest) with db := deleteById item.id s.db }
      else s.setPhase i .halted
  | _ => s

/-- One scheduling choice of the interleaved execution. -/
inductive MicroStep
  | trigger (i : Nat)
  | process (i : Nat)
  | resume (i : Nat)
deriving DecidableEq, Repr

/-- Run a concrete schedule of micro-steps. -/
def runSchedule (server : PendingItem → Bool) :
    TwoPassState → List MicroStep → TwoPassState
  | s, [] => s
  | s, .trigger i :: rest => runSchedule server (stepTrigger i s) rest
  | s, .process i :: rest => runSchedule server (stepProcess server i s) rest
  | s, .resume i :: rest => runSchedule server (stepResume server i s) rest

/-- The vacuous-operation condition of spec §4.4 step 3a as the code
implements it: an offline-prefixed target id together with one of the
branches of `syncItem` that actually short-circuits (product update/delete,
or invoice delete without the `isReturn` flag). -/
def offlineVacuous (item : PendingItem) : Prop :=
  dataIdIsOffline item = true ∧
    ((item.type = .product ∧ (item.action = .update ∨ item.action = .delete)) ∨
      (item.type = .invoice ∧ item.action = .delete ∧ item.data.isReturn = false))

instance (item : PendingItem) : Decidable (offlineVacuous item) := by
  unfold offlineVacuous
  infer_instance

/-- "Every occurrence of the local identifier has been rewritten": no
optimistic-store invoice still carries it and no queued operation still
references it. This is the post-condition the spec asserts after a
successful create replay. -/
def idsRewritten (localId : String) (st : PassState) : Prop :=
  (∀ inv ∈ st.store.invoices, inv.id ≠ localId) ∧
  (∀ item ∈ st.db, item.data.dataId ≠ some localId)

instance (localId : String) (st : PassState) : Decidable (idsRewritten localId st) := by
  unfold idsRewritten
  infer_instance

/-!  Concrete records used by counterexamples and witnesses.  -/

/-- A server oracle whose every response is `ok`. -/
def trueServer : PendingItem → Bool := fun _ => true

/-- C1 scenario: the optimistic store holds an invoice created offline under
the local id `offline_x`. -/
def c1Store : StoreState := { invoices := [{ id := "offline_x" }] }

/-- C1 scenario: the queued create for the offline invoice (create payloads
carry no id at all). -/
def c1OpCreate : PendingItem :=
  { id := "invoice_create_1_0.1", type := .invoice, action := .create,
    timestamp := 1 }

/-- C1 scenario: a later queued delete still referencing the local id. -/
def c1OpDelete : PendingItem :=
  { id := "invoice_delete_2_0.2", type := .invoice, action := .delete,
    data := { dataId := some "offline_x" }, timestamp := 2 }

/-- C1 scenario: pass state at the start of the drain. -/
def c1Init : PassState :=
  { db := [c1OpCreate, c1OpDelete], store := c1Store }

/-- C2/C8 witness ops: three product creates queued at timestamps 1, 2, 3. -/
def c2Op1 : PendingItem :=
  { id := "product_create_1_0.1", type := .product, action := .create,
    timestamp := 1 }

/-- Second queued product create. -/
def c2Op2 : PendingItem :=
  { id := "product_create_2_0.2", type := .product, action := .create,
    timestamp := 2 }

/-- Third queued product create. -/
def c2Op3 : PendingItem :=
  { id := "product_create_3_0.3", type := .product, action := .create,
    timestamp := 3 }

/-- Server oracle for the C2 witness: only the first create succeeds. -/
def c2Server : PendingItem → Bool := fun item => item.timestamp == 1

/-- C3 counterexample: a product update queued first … -/
def c3ItemA : PendingItem :=
  { id := "product_update_1000_0.1", type := .product, action := .update,
    data := { dataId := some "p1" }, timestamp := 1000 }

/-- … and an invoice create queued second in the same millisecond. -/
def c3ItemB : PendingItem :=
  { id := "invoice_create_1000_0.2", type := .invoice, action := .create,
    timestamp := 1000 }

/-- C4 counterexample: a queued return (delete with `isReturn`) of an
invoice that only ever existed under an offline id. -/
def c4ReturnOp : PendingItem :=
  { id := "invoice_delete_5_0.1", type := .invoice, action := .delete,
    data := { dataId := some "offline_abc", isReturn := true }, timestamp := 5 }

/-- C4 witness: a queued update of an offline-created product. -/
def c4wOp : PendingItem :=
  { id := "product_update_1_0.1", type := .product, action := .update,
    data := { dataId := some "offline_p" }, timestamp := 1 }

/-- C8 scenario: initial two-pass state over a one-item queue. -/
def c8Start : TwoPassState := { db := [c2Op1] }

/-- The fetch `c2Op1` issues. -/
def c8Call : GatewayCall :=
  { method := "POST", url := "/api/products", itemId := "product_create_1_0.1" }

/-- C8 witness: pass 1 is parked on an in-flight call while pass 2 is
triggered. -/
def c8MidState : TwoPassState :=
  { db := [c2Op1], p1 := .awaitCall c2Op1 [] }

/-!  Theorems.  -/

/-- Concrete invoice payload with `paidAmount > total` (an overpayment: the
customer hands over 7 against a 5 total). -/
def c6Input : InvoiceInput := { total := 5, paidAmount := 7 }

/-- Concrete input for the C6 witness: total 10, paid 4. -/
def c6wInput : InvoiceInput := { total := 10, paidAmount := 4 }

/-- Store for the C9 witness's products side: a fresh install that holds one
product and no invoices yet. -/
def c9ProdStore : StoreState :=
  { products := [{ id := "p1", stock := 10 }] }

/-- Store for the C9 witness's invoices side: one invoice, no products. -/
def c9InvStore : StoreState :=
  { invoices := [{ id := "inv1" }] }

/-- Concrete store for the C5 witness: one product with stock 10. -/
def c5Store : StoreState := { products := [{ id := "p1", stock := 10 }] }

/-- Concrete invoice input for the C5 witness: sells 3 units of `p1`. -/
def c5Input : InvoiceInput :=
  { items := [{ productId := "p1", quantity := 3 }], total := 30, paidAmount := 30 }

/-- Invoice stored for the C7 witness: one item, 3 units of `p1`. -/
def c7OldInvoice : Invoice :=
  { id := "inv1", items := [{ productId := "p1", quantity := 3 }] }

/-- Products file for the C7 witness: `p1` with stock 10. -/
def c7Products : List Product := [{ id := "p1", stock := 10 }]

/-- Updates for the C7 witness: same item with quantity 5. -/
def c7Updates : InvoiceUpdates :=
  { items := some [{ productId := "p1", quantity := 5 }] }

/-!  Theorems.  -/

/-- C10: for every fetched invoice list, invoice id and payment amount, the
client wrapper `updateInvoicePayment` returns false (and performs no
mutation), hence the store action `updateInvoice` returns false and leaves
the store state unchanged. -/
theorem c10_update_invoice_payment_always_false
    (invoices : List Invoice) (id : String) (paidAmount : ℚ)
    (s : StoreState) (f : FetchedData) :
    updateInvoicePaymentModel invoices id paidAmount = false ∧
    storeUpdateInvoice s invoices id paidAmount f = (false, s) := by
  have h : updateInvoicePaymentModel invoices id paidAmount = false := by
    unfold updateInvoicePaymentModel
    cases invoices.find? (fun inv => inv.id == id) <;> rfl
  refine ⟨h, ?_⟩
  unfold storeUpdateInvoice
  rw [h]
  rfl

/-- C6 counterexample: part_006 `createInvoice` stores the unclamped
difference `total - paidAmount`; at `total = 5`, `paidAmount = 7` the stored
`remainingBalance` is `-2`, not `max 0 (total - paidAmount) = 0`. -/
theorem c6_counterexample :
    (createInvoice6 [] [] [] c6Input "inv1" "t0").2.2.2.remainingBalance = -2 ∧
    (createInvoice6 [] [] [] c6Input "inv1" "t0").2.2.2.remainingBalance ≠
      max 0 (c6Input.total - c6Input.paidAmount) := by
  have h : (createInvoice6 [] [] [] c6Input "inv1" "t0").2.2.2.remainingBalance =
      c6Input.total - c6Input.paidAmount := rfl
  rw [h]
  norm_num [c6Input]

/-- C6 (amended): the stored `remainingBalance` is the raw difference
`total - paidAmount` (negative on overpayment, not clamped at 0), and the
stored status is `paid` exactly when that difference is ≤ 0, else `partial`
when `paidAmount > 0`, else `unpaid` — all pure functions of the
`(total, paidAmount)` pair. -/
theorem c6_amended (products : List Product) (customers : List Customer)
    (invoices : List Invoice) (invoice : InvoiceInput) (id now : String)
    (htotal : 0 ≤ invoice.total) (hpaid : 0 ≤ invoice.paidAmount) :
    (createInvoice6 products customers invoices invoice id now).2.2.2.remainingBalance =
      invoice.total - invoice.paidAmount ∧
    ((createInvoice6 products customers invoices invoice id now).2.2.2.status = "paid" ↔
      invoice.total - invoice.paidAmount ≤ 0) ∧
    ((createInvoice6 products customers invoices invoice id now).2.2.2.status = "partial" ↔
      0 < invoice.total - invoice.paidAmount ∧ 0 < invoice.paidAmount) ∧
    ((createInvoice6 products customers invoices invoice id now).2.2.2.status = "unpaid" ↔
      0 < invoice.total - invoice.paidAmount ∧ invoice.paidAmount = 0) := by
  have hstat :
      (createInvoice6 products customers invoices invoice id now).2.2.2.status =
        if invoice.total - invoice.paidAmount ≤ 0 then "paid"
        else if invoice.paidAmount > 0 then "partial" else "unpaid" := rfl
  refine ⟨rfl, ?_, ?_, ?_⟩
  · rw [hstat]
    rcases le_or_lt (invoice.total - invoice.paidAmount) 0 with hle | hgt
    · rw [if_pos hle]
      exact ⟨fun _ => hle, fun _ => rfl⟩
    · rw [if_neg (not_le.mpr hgt)]
      by_cases hp : invoice.paidAmount > 0
      · rw [if_pos hp]
        exact ⟨fun hcontr => absurd hcontr (by decide),
          fun hcontr => absurd hcontr (not_le.mpr hgt)⟩
      · rw [if_neg hp]
        exact ⟨fun hcontr => absurd hcontr (by decide),
          fun hcontr => absurd hcontr (not_le.mpr hgt)⟩
  · rw [hstat]
    rcases le_or_lt (invoice.total - invoice.paidAmount) 0 with hle | hgt
    · rw [if_pos hle]
      exact ⟨fun hcontr => absurd hcontr (by decide),
        fun hcontr => absurd hle (not_le.mpr hcontr.1)⟩
    · rw [if_neg (not_le.mpr hgt)]
      by_cases hp : invoice.paidAmount > 0
      · rw [if_pos hp]
        exact ⟨fun _ => ⟨hgt, hp⟩, fun _ => rfl⟩
      · rw [if_neg hp]
        exact ⟨fun hcontr => absurd hcontr (by decide),
          fun hcontr => absurd hcontr.2 hp⟩
  · rw [hstat]
    rcases le_or_lt (invoice.total - invoice.paidAmount) 0 with hle | hgt
    · rw [if_pos hle]
      exact ⟨fun hcontr => absurd hcontr (by decide),
        fun hcontr => absurd hle (not_le.mpr hcontr.1)⟩
    · rw [if_neg (not_le.mpr hgt)]
      by_cases hp : invoice.paidAmount > 0
      · rw [if_pos hp]
        exact ⟨fun hcontr => absurd hcontr (by decide),
          fun hcontr => absurd (hcontr.2 ▸ hp) (lt_irrefl 0)⟩
      · rw [if_neg hp]
        have hz : invoice.paidAmount = 0 := le_antisymm (not_lt.mp hp) hpaid
        exact ⟨fun _ => ⟨hgt, hz⟩, fun _ => rfl⟩

/-- C6 witness: the amended theorem applied at `total = 10`,
`paidAmount = 4` — the stored invoice is `partial` with balance 6. -/
theorem c6_amended_witness :
    (createInvoice6 [] [] [] c6wInput "inv1" "t0").2.2.2.remainingBalance =
      c6wInput.total - c6wInput.paidAmount ∧
    ((createInvoice6 [] [] [] c6wInput "inv1" "t0").2.2.2.status = "partial" ↔
      0 < c6wInput.total - c6wInput.paidAmount ∧ 0 < c6wInput.paidAmount) :=
  ⟨(c6_amended [] [] [] c6wInput "inv1" "t0" (by norm_num [c6wInput])
      (by norm_num [c6wInput])).1,
    (c6_amended [] [] [] c6wInput "inv1" "t0" (by norm_num [c6wInput])
      (by norm_num [c6wInput])).2.2.1⟩

/-- C9: part_008 `loadData` never replaces a non-empty products or invoices
list with an empty one, each list independently: whenever the store holds at
least one product (no matter what the invoices list holds), a missing or
empty fetched products array leaves the products list unchanged and the
resulting products list is non-empty — and respectively for invoices. -/
theorem c9_load_data_protects (s : StoreState) (f : FetchedData) :
    (s.products ≠ [] →
      ((f.products = none ∨ f.products = some []) →
        (loadDataModel s f).products = s.products) ∧
      (loadDataModel s f).products ≠ []) ∧
    (s.invoices ≠ [] →
      ((f.invoices = none ∨ f.invoices = some []) →
        (loadDataModel s f).invoices = s.invoices) ∧
      (loadDataModel s f).invoices ≠ []) := by
  have hprod : (loadDataModel s f).products =
      match f.products with
      | some ps => if ps.length > 0 then ps else s.products
      | none => s.products := rfl
  have hinv : (loadDataModel s f).invoices =
      match f.invoices with
      | some invs => if invs.length > 0 then invs else s.invoices
      | none => s.invoices := rfl
  constructor
  · intro hp
    constructor
    · intro hcase
      rw [hprod]
      rcases hcase with hnone | hempty
      · rw [hnone]
      · rw [hempty]
        rfl
    · rw [hprod]
      cases hfp : f.products with
      | none => exact hp
      | some ps =>
          show (if ps.length > 0 then ps else s.products) ≠ []
          by_cases hlen : ps.length > 0
          · rw [if_pos hlen]
            exact List.length_pos.mp hlen
          · rw [if_neg hlen]
            exact hp
  · intro hi
    constructor
    · intro hcase
      rw [hinv]
      rcases hcase with hnone | hempty
      · rw [hnone]
      · rw [hempty]
        rfl
    · rw [hinv]
      cases hfi : f.invoices with
      | none => exact hi
      | some invs =>
          show (if invs.length > 0 then invs else s.invoices) ≠ []
          by_cases hlen : invs.length > 0
          · rw [if_pos hlen]
            exact List.length_pos.mp hlen
          · rw [if_neg hlen]
            exact hi

/-- C9 witness: the products side applied to a store with one product and no
invoices at all (fetch returns an empty array) — the products list is kept
and stays non-empty — and the invoices side applied to a store with one
invoice and no products (fetch missing). -/
theorem c9_load_data_protects_witness :
    (loadDataModel c9ProdStore ⟨some [], some []⟩).products = c9ProdStore.products ∧
    (loadDataModel c9ProdStore ⟨some [], some []⟩).products ≠ [] ∧
    (loadDataModel c9InvStore ⟨none, none⟩).invoices = c9InvStore.invoices ∧
    (loadDataModel c9InvStore ⟨none, none⟩).invoices ≠ [] := by
  have h1 := (c9_load_data_protects c9ProdStore ⟨some [], some []⟩).1
    (by simp [c9ProdStore])
  have h2 := (c9_load_data_protects c9InvStore ⟨none, none⟩).2
    (by simp [c9InvStore])
  exact ⟨h1.1 (Or.inr rfl), h1.2, h2.1 (Or.inl rfl), h2.2⟩

/-- Restoring an item list's quantities undoes deducting them: both sides
look up the same (first) matching item, and `stock - q + q = stock`. -/
theorem restoreStock_deductStock (items : List InvoiceItem) (p : Product) :
    restoreStock items (deductStock items p) = p := by
  cases h : items.find? (fun item => item.productId == p.id) with
  | none =>
      simp [deductStock, restoreStock, h]
  | some invoiceItem =>
      have h1 : deductStock items p = { p with stock := p.stock - invoiceItem.quantity } := by
        simp [deductStock, h]
      rw [h1]
      simp [restoreStock, h, sub_add_cancel]

/-- `find?` over a list extended with a fresh record finds that record. -/
theorem find?_fresh_append (invs : List Invoice) (x : Invoice) (idv : String)
    (hx : x.id = idv) (hfresh : ∀ inv ∈ invs, inv.id ≠ idv) :
    (invs ++ [x]).find? (fun inv => inv.id == idv) = some x := by
  rw [List.find?_append]
  have h1 : invs.find? (fun inv => inv.id == idv) = none := by
    rw [List.find?_eq_none]
    intro a ha
    simp only [beq_iff_eq]
    exact hfresh a ha
  rw [h1]
  simp [List.find?, hx]

/-- C5: creating an invoice through part_008 `addInvoice` (offline branch or
confirmed-by-server branch) and then removing the resulting invoice through
`removeInvoice` leaves every product's record — in particular its stock —
exactly as before the create, for quantities that are non-negative and no
larger than the prior stock. -/
theorem c5_stock_roundtrip (s : StoreState) (invoice : InvoiceInput)
    (localId now : String) (apiResult : Option Invoice)
    (hfresh : ∀ inv ∈ s.invoices, inv.id ≠ localId)
    (hapi : apiResult = none ∨
      ∃ srv, apiResult = some srv ∧ srv.items = invoice.items ∧
        ∀ inv ∈ s.invoices, inv.id ≠ srv.id)
    (hqty : ∀ item ∈ invoice.items, 0 ≤ item.quantity ∧
      ∀ p ∈ s.products, p.id = item.productId → item.quantity ≤ p.stock) :
    (removeInvoiceApply (addInvoiceModel s invoice localId now apiResult).1
        (addInvoiceModel s invoice localId now apiResult).2.id).products =
      s.products := by
  rcases hapi with hnone | ⟨srv, hsrv, hitems, hfresh2⟩
  · subst hnone
    have hfind :
        ((addInvoiceModel s invoice localId now none).1.invoices.find?
          (fun inv => inv.id == (addInvoiceModel s invoice localId now none).2.id)) =
          some (localInvoiceOf invoice localId now) := by
      show ((s.invoices ++ [localInvoiceOf invoice localId now]).find?
        (fun inv => inv.id == localId)) = some (localInvoiceOf invoice localId now)
      exact find?_fresh_append s.invoices (localInvoiceOf invoice localId now)
        localId rfl hfresh
    show ((addInvoiceModel s invoice localId now none).1.products.map
        (fun p =>
          match (addInvoiceModel s invoice localId now none).1.invoices.find?
            (fun inv => inv.id == (addInvoiceModel s invoice localId now none).2.id) with
          | some inv => restoreStock inv.items p
          | none => p)) = s.products
    rw [hfind]
    show ((s.products.map (deductStock invoice.items)).map
      (fun p => restoreStock (localInvoiceOf invoice localId now).items p)) = s.products
    rw [List.map_map]
    have hcancel : ∀ p ∈ s.products,
        restoreStock (localInvoiceOf invoice localId now).items
          (deductStock invoice.items p) = p := by
      intro p _
      exact restoreStock_deductStock invoice.items p
    calc (s.products.map
          (fun p => restoreStock (localInvoiceOf invoice localId now).items
            (deductStock invoice.items p)))
        = s.products.map (fun p => p) := List.map_congr_left hcancel
      _ = s.products := List.map_id' s.products
  · subst hsrv
    have hinvs :
        (addInvoiceModel s invoice localId now (some srv)).1.invoices =
          s.invoices ++ [{ srv with synced := true }] := by
      show ((s.invoices ++ [localInvoiceOf invoice localId now]).map
        (fun inv => if inv.id == localId then { srv with synced := true } else inv)) =
        s.invoices ++ [{ srv with synced := true }]
      rw [List.map_append]
      congr 1
      · calc (s.invoices.map
              (fun inv => if inv.id == localId then { srv with synced := true } else inv))
            = s.invoices.map (fun inv => inv) := by
              apply List.map_congr_left
              intro inv hinv
              rw [if_neg]
              simp only [beq_iff_eq]
              exact hfresh inv hinv
          _ = s.invoices := List.map_id' s.invoices
      · simp [localInvoiceOf]
    have hfind :
        ((addInvoiceModel s invoice localId now (some srv)).1.invoices.find?
          (fun inv => inv.id == (addInvoiceModel s invoice localId now (some srv)).2.id)) =
          some { srv with synced := true } := by
      rw [hinvs]
      exact find?_fresh_append s.invoices { srv with synced := true } srv.id rfl hfresh2
    show ((addInvoiceModel s invoice localId now (some srv)).1.products.map
        (fun p =>
          match (addInvoiceModel s invoice localId now (some srv)).1.invoices.find?
            (fun inv => inv.id == (addInvoiceModel s invoice localId now (some srv)).2.id) with
          | some inv => restoreStock inv.items p
          | none => p)) = s.products
    rw [hfind]
    show ((s.products.map (deductStock invoice.items)).map
      (fun p => restoreStock ({ srv with synced := true } : Invoice).items p)) = s.products
    rw [List.map_map]
    have hcancel : ∀ p ∈ s.products,
        restoreStock ({ srv with synced := true } : Invoice).items
          (deductStock invoice.items p) = p := by
      intro p _
      have : ({ srv with synced := true } : Invoice).items = invoice.items := hitems
      rw [this]
      exact restoreStock_deductStock invoice.items p
    calc (s.products.map
          (fun p => restoreStock ({ srv with synced := true } : Invoice).items
            (deductStock invoice.items p)))
        = s.products.map (fun p => p) := List.map_congr_left hcancel
      _ = s.products := List.map_id' s.products

/-- C5 witness: selling 3 of a stock-10 product offline and then removing
the resulting invoice restores the product list exactly. -/
theorem c5_stock_roundtrip_witness :
    (removeInvoiceApply (addInvoiceModel c5Store c5Input "offline_x" "t0" none).1
        (addInvoiceModel c5Store c5Input "offline_x" "t0" none).2.id).products =
      c5Store.products :=
  c5_stock_roundtrip c5Store c5Input "offline_x" "t0" none
    (by intro inv hinv; simp [c5Store] at hinv) (Or.inl rfl)
    (by
      intro item hitem
      simp [c5Input] at hitem
      subst hitem
      refine ⟨by norm_num, ?_⟩
      intro p hp hpid
      simp [c5Store] at hp
      subst hp
      norm_num)

/-- `updateFirstBy` is invisible to any projection the update preserves. -/
theorem updateFirstBy_map_of_inv (pred : α → Bool) (f : α → α) (g : α → β)
    (hinv : ∀ x, g (f x) = g x) (l : List α) :
    (updateFirstBy pred f l).map g = l.map g := by
  induction l with
  | nil => rfl
  | cons x xs ih =>
      show (if pred x then f x :: xs else x :: updateFirstBy pred f xs).map g =
        g x :: xs.map g
      by_cases h : pred x = true
      · rw [if_pos h]
        show g (f x) :: xs.map g = g x :: xs.map g
        rw [hinv x]
      · rw [if_neg h]
        show g x :: (updateFirstBy pred f xs).map g = g x :: xs.map g
        rw [ih]

/-- When product ids are unique, updating the first id-match is the same as
updating every id-match. -/
theorem updateFirstBy_eq_map (pid : String) (f : Product → Product)
    (ps : List Product) (hnd : (ps.map (·.id)).Nodup) :
    updateFirstBy (fun p => p.id == pid) f ps =
      ps.map (fun p => if p.id == pid then f p else p) := by
  induction ps with
  | nil => rfl
  | cons p ps ih =>
      have hnd' : (p.id :: ps.map (·.id)).Nodup := hnd
      have hmem : p.id ∉ ps.map (·.id) := (List.nodup_cons.mp hnd').1
      show (if p.id == pid then f p :: ps else p :: updateFirstBy (fun q => q.id == pid) f ps) =
        (if p.id == pid then f p else p) :: ps.map (fun q => if q.id == pid then f q else q)
      by_cases h : (p.id == pid) = true
      · rw [if_pos h, if_pos h]
        have hpid : p.id = pid := beq_iff_eq.mp h
        congr 1
        calc ps = ps.map (fun q => q) := (List.map_id' ps).symm
          _ = ps.map (fun q => if q.id == pid then f q else q) := by
              apply List.map_congr_left
              intro q hq
              rw [if_neg]
              intro hc
              exact hmem (hpid ▸ (beq_iff_eq.mp hc) ▸ List.mem_map_of_mem (·.id) hq)
      · rw [if_neg h, if_neg h]
        congr 1
        exact ih (List.nodup_cons.mp hnd').2

/-- Unfolding `sumQtyFor` over the head item. -/
theorem sumQtyFor_cons (it : InvoiceItem) (its : List InvoiceItem) (pid : String) :
    sumQtyFor (it :: its) pid =
      (if it.productId == pid then it.quantity else 0) + sumQtyFor its pid := by
  unfold sumQtyFor
  rw [List.filter_cons]
  by_cases h : (it.productId == pid) = true
  · rw [if_pos h, if_pos h]
    simp
  · rw [if_neg h, if_neg h]
    simp

/-- The restore loop leaves product ids unchanged. -/
theorem restoreOldStock_ids (items : List InvoiceItem) :
    ∀ ps : List Product, (restoreOldStock ps items).map (·.id) = ps.map (·.id) := by
  induction items with
  | nil => intro ps; rfl
  | cons it its ih =>
      intro ps
      have hstep : restoreOldStock ps (it :: its) =
          restoreOldStock (updateFirstBy (fun p => p.id == it.productId)
            (fun p => { p with stock := p.stock + it.quantity }) ps) its := rfl
      rw [hstep, ih]
      exact updateFirstBy_map_of_inv (fun p => p.id == it.productId)
        (fun p => { p with stock := p.stock + it.quantity }) (fun p => p.id)
        (fun p => rfl) ps

/-- The deduct loop leaves product ids unchanged. -/
theorem deductNewStock_ids (now : String) (items : List InvoiceItem) :
    ∀ ps : List Product, (deductNewStock now ps items).map (·.id) = ps.map (·.id) := by
  induction items with
  | nil => intro ps; rfl
  | cons it its ih =>
      intro ps
      have hstep : deductNewStock now ps (it :: its) =
          deductNewStock now (updateFirstBy (fun p => p.id == it.productId)
            (fun p => { p with stock := p.stock - it.quantity, updatedAt := now }) ps) its := rfl
      rw [hstep, ih]
      exact updateFirstBy_map_of_inv (fun p => p.id == it.productId)
        (fun p => { p with stock := p.stock - it.quantity, updatedAt := now })
        (fun p => p.id) (fun p => rfl) ps

/-- Under unique product ids, the "Restore old stock" loop adds — product by
product — the total quantity the item list books against that product. -/
theorem restoreOldStock_eq (items : List InvoiceItem) :
    ∀ ps : List Product, (ps.map (·.id)).Nodup →
      restoreOldStock ps items =
        ps.map (fun p => { p with stock := p.stock + sumQtyFor items p.id }) := by
  induction items with
  | nil =>
      intro ps _
      show ps = _
      calc ps = ps.map (fun p => p) := (List.map_id' ps).symm
        _ = ps.map (fun p => { p with stock := p.stock + sumQtyFor [] p.id }) := by
            apply List.map_congr_left
            intro p _
            show p = { p with stock := p.stock + sumQtyFor [] p.id }
            have h0 : sumQtyFor [] p.id = 0 := rfl
            rw [h0, add_zero]
  | cons it its ih =>
      intro ps hnd
      have hstep : restoreOldStock ps (it :: its) =
          restoreOldStock (updateFirstBy (fun p => p.id == it.productId)
            (fun p => { p with stock := p.stock + it.quantity }) ps) its := rfl
      have hids : (updateFirstBy (fun p => p.id == it.productId)
          (fun p => { p with stock := p.stock + it.quantity }) ps).map (·.id) =
          ps.map (·.id) :=
        updateFirstBy_map_of_inv (fun p => p.id == it.productId)
          (fun p => { p with stock := p.stock + it.quantity }) (fun p => p.id)
          (fun p => rfl) ps
      rw [hstep, ih _ (by rw [hids]; exact hnd),
        updateFirstBy_eq_map it.productId _ ps hnd, List.map_map]
      apply List.map_congr_left
      intro p _
      by_cases hc : p.id = it.productId
      · have hb : (p.id == it.productId) = true := beq_iff_eq.mpr hc
        have hb2 : (it.productId == p.id) = true := beq_iff_eq.mpr hc.symm
        show (fun q => { q with stock := q.stock + sumQtyFor its q.id })
            (if p.id == it.productId then { p with stock := p.stock + it.quantity } else p) =
          { p with stock := p.stock + sumQtyFor (it :: its) p.id }
        rw [if_pos hb, sumQtyFor_cons, if_pos hb2]
        show { p with stock := p.stock + it.quantity + sumQtyFor its p.id } =
          { p with stock := p.stock + (it.quantity + sumQtyFor its p.id) }
        rw [add_assoc]
      · have hb : (p.id == it.productId) = false :=
          beq_eq_false_iff_ne.mpr hc
        have hb2 : (it.productId == p.id) = false :=
          beq_eq_false_iff_ne.mpr (Ne.symm hc)
        show (fun q => { q with stock := q.stock + sumQtyFor its q.id })
            (if p.id == it.productId then { p with stock := p.stock + it.quantity } else p) =
          { p with stock := p.stock + sumQtyFor (it :: its) p.id }
        rw [if_neg (by rw [hb]; exact Bool.false_ne_true), sumQtyFor_cons, if_neg
          (by rw [hb2]; exact Bool.false_ne_true)]
        show { p with stock := p.stock + sumQtyFor its p.id } =
          { p with stock := p.stock + (0 + sumQtyFor its p.id) }
        rw [zero_add]

/-- Under unique product ids, the "Deduct new stock" loop subtracts —
product by product — the total quantity the new item list books against that
product. -/
theorem deductNewStock_stocks (now : String) (items : List InvoiceItem) :
    ∀ ps : List Product, (ps.map (·.id)).Nodup →
      (deductNewStock now ps items).map (·.stock) =
        ps.map (fun p => p.stock - sumQtyFor items p.id) := by
  induction items with
  | nil =>
      intro ps _
      apply List.map_congr_left
      intro p _
      show p.stock = p.stock - sumQtyFor [] p.id
      have h0 : sumQtyFor [] p.id = 0 := rfl
      rw [h0, sub_zero]
  | cons it its ih =>
      intro ps hnd
      have hstep : deductNewStock now ps (it :: its) =
          deductNewStock now (updateFirstBy (fun p => p.id == it.productId)
            (fun p => { p with stock := p.stock - it.quantity, updatedAt := now }) ps) its := rfl
      have hids : (updateFirstBy (fun p => p.id == it.productId)
          (fun p => { p with stock := p.stock - it.quantity, updatedAt := now }) ps).map (·.id) =
          ps.map (·.id) :=
        updateFirstBy_map_of_inv (fun p => p.id == it.productId)
          (fun p => { p with stock := p.stock - it.quantity, updatedAt := now })
          (fun p => p.id) (fun p => rfl) ps
      rw [hstep, ih _ (by rw [hids]; exact hnd),
        updateFirstBy_eq_map it.productId _ ps hnd, List.map_map]
      apply List.map_congr_left
      intro p _
      by_cases hc : p.id = it.productId
      · have hb : (p.id == it.productId) = true := beq_iff_eq.mpr hc
        have hb2 : (it.productId == p.id) = true := beq_iff_eq.mpr hc.symm
        show (fun q => q.stock - sumQtyFor its q.id)
            (if p.id == it.productId then
              { p with stock := p.stock - it.quantity, updatedAt := now } else p) =
          p.stock - sumQtyFor (it :: its) p.id
        rw [if_pos hb, sumQtyFor_cons, if_pos hb2]
        show p.stock - it.quantity - sumQtyFor its p.id =
          p.stock - (it.quantity + sumQtyFor its p.id)
        omega
      · have hb : (p.id == it.productId) = false :=
          beq_eq_false_iff_ne.mpr hc
        have hb2 : (it.productId == p.id) = false :=
          beq_eq_false_iff_ne.mpr (Ne.symm hc)
        show (fun q => q.stock - sumQtyFor its q.id)
            (if p.id == it.productId then
              { p with stock := p.stock - it.quantity, updatedAt := now } else p) =
          p.stock - sumQtyFor (it :: its) p.id
        rw [if_neg (by rw [hb]; exact Bool.false_ne_true), sumQtyFor_cons, if_neg
          (by rw [hb2]; exact Bool.false_ne_true)]
        show p.stock - sumQtyFor its p.id = p.stock - (0 + sumQtyFor its p.id)
        rw [zero_add]

/-- C7: when a server-side invoice edit changes the item list, the stored
products end up — product by product, under unique product ids — with stock
`old stock + (total old quantity) - (total new quantity)`: old quantities
are fully restored, then new quantities deducted, so membership changes are
handled and a pure quantity change nets to the delta (3 → 5 gives S - 2). -/
theorem c7_edit_rollback_then_reapply (invoices : List Invoice)
    (products : List Product) (id : String) (updates : InvoiceUpdates)
    (now : String) (oldInvoice : Invoice) (newItems : List InvoiceItem)
    (hfind : invoices.find? (fun inv => inv.id == id) = some oldInvoice)
    (hitems : updates.items = some newItems)
    (hnd : (products.map (·.id)).Nodup) :
    (serverUpdateInvoice invoices products id updates now).2.2.map (·.id) =
      products.map (·.id) ∧
    (serverUpdateInvoice invoices products id updates now).2.2.map (·.stock) =
      products.map
        (fun p => p.stock + sumQtyFor oldInvoice.items p.id - sumQtyFor newItems p.id) := by
  have hprod : (serverUpdateInvoice invoices products id updates now).2.2 =
      deductNewStock now (restoreOldStock products oldInvoice.items) newItems := by
    unfold serverUpdateInvoice
    rw [hfind]
    show (match updates.items with
      | some newItems => deductNewStock now (restoreOldStock products oldInvoice.items) newItems
      | none => products) = _
    rw [hitems]
  have hndr : ((restoreOldStock products oldInvoice.items).map (·.id)).Nodup := by
    rw [restoreOldStock_ids]
    exact hnd
  constructor
  · rw [hprod, deductNewStock_ids, restoreOldStock_ids]
  · rw [hprod, deductNewStock_stocks now newItems _ hndr,
      restoreOldStock_eq oldInvoice.items products hnd, List.map_map]
    apply List.map_congr_left
    intro p _
    show (fun q => q.stock - sumQtyFor newItems q.id)
        ({ p with stock := p.stock + sumQtyFor oldInvoice.items p.id }) =
      p.stock + sumQtyFor oldInvoice.items p.id - sumQtyFor newItems p.id
    rfl

/-- C7 witness: editing the only item's quantity from 3 to 5 with pre-edit
stock 10 yields stock 10 + 3 - 5 = 8. -/
theorem c7_edit_rollback_then_reapply_witness :
    (serverUpdateInvoice [c7OldInvoice] c7Products "inv1" c7Updates "t1").2.2.map (·.stock) =
      c7Products.map
        (fun p => p.stock + sumQtyFor c7OldInvoice.items p.id -
          sumQtyFor ((c7Updates.items).getD []) p.id) :=
  (c7_edit_rollback_then_reapply [c7OldInvoice] c7Products "inv1" c7Updates "t1"
    c7OldInvoice [{ productId := "p1", quantity := 5 }] (by decide) rfl (by decide)).2

/-- Inserting an element that relates to every list element puts it in
front. -/
theorem orderedInsert_of_forall_rel (r : α → α → Prop) [DecidableRel r]
    (a : α) (l : List α) (h : ∀ b ∈ l, r a b) :
    l.orderedInsert r a = a :: l := by
  cases l with
  | nil => rfl
  | cons b bs =>
      exact List.orderedInsert_of_le r bs (h b (List.mem_cons_self b bs))

/-- Filtering commutes with ordered insertion into a sorted list: the
element either survives the filter and is inserted into the filtered list,
or disappears. -/
theorem filter_orderedInsert (r : α → α → Prop) [DecidableRel r]
    [IsTotal α r] [IsTrans α r] (p : α → Bool) (a : α) :
    ∀ l : List α, l.Sorted r →
      (l.orderedInsert r a).filter p =
        if p a then (l.filter p).orderedInsert r a else l.filter p := by
  intro l
  induction l with
  | nil =>
      intro _
      by_cases hpa : p a = true
      · rw [if_pos hpa]
        show [a].filter p = [a]
        rw [List.filter_cons]
        rw [if_pos hpa]
        rfl
      · rw [if_neg hpa]
        show [a].filter p = []
        rw [List.filter_cons]
        rw [if_neg hpa]
        rfl
  | cons b bs ih =>
      intro hl
      have hbs : bs.Sorted r := hl.of_cons
      have hb : ∀ c ∈ bs, r b c := List.rel_of_sorted_cons hl
      by_cases hab : r a b
      · rw [List.orderedInsert_of_le r bs hab]
        by_cases hpa : p a = true
        · rw [if_pos hpa]
          rw [List.filter_cons, if_pos hpa]
          rw [orderedInsert_of_forall_rel r a ((b :: bs).filter p)]
          intro c hc
          have hcmem : c ∈ b :: bs := List.mem_of_mem_filter hc
          rcases List.mem_cons.mp hcmem with hceq | hcbs
          · rw [hceq]; exact hab
          · exact Trans.trans hab (hb c hcbs)
        · rw [if_neg hpa]
          rw [List.filter_cons, if_neg hpa]
      · have horder : (b :: bs).orderedInsert r a = b :: bs.orderedInsert r a := by
          show (if r a b then a :: b :: bs else b :: bs.orderedInsert r a) = _
          rw [if_neg hab]
        rw [horder, List.filter_cons, List.filter_cons]
        by_cases hpb : p b = true
        · rw [if_pos hpb, if_pos hpb]
          rw [ih hbs]
          by_cases hpa : p a = true
          · rw [if_pos hpa, if_pos hpa]
            have hins : (b :: bs.filter p).orderedInsert r a =
                b :: (bs.filter p).orderedInsert r a := by
              show (if r a b then a :: b :: bs.filter p
                else b :: (bs.filter p).orderedInsert r a) = _
              rw [if_neg hab]
            rw [hins]
          · rw [if_neg hpa, if_neg hpa]
        · rw [if_neg hpb, if_neg hpb]
          exact ih hbs

/-- Filtering commutes with the stable insertion sort. -/
theorem filter_insertionSort (r : α → α → Prop) [DecidableRel r]
    [IsTotal α r] [IsTrans α r] (p : α → Bool) (l : List α) :
    (l.insertionSort r).filter p = (l.filter p).insertionSort r := by
  induction l with
  | nil => rfl
  | cons a l ih =>
      show ((l.insertionSort r).orderedInsert r a).filter p = _
      rw [filter_orderedInsert r p a (l.insertionSort r) (List.sorted_insertionSort r l), ih]
      rw [List.filter_cons]
      by_cases hpa : p a = true
      · rw [if_pos hpa, if_pos hpa]
        rfl
      · rw [if_neg hpa, if_neg hpa]

/-- The unsynced view of a filtered queue store is the filtered view: both
sorts and the synced-filter commute with the extra filter. -/
theorem getUnsynced_filter (db : List PendingItem) (q : PendingItem → Bool) :
    getUnsyncedItemsModel (db.filter q) = (getUnsyncedItemsModel db).filter q := by
  unfold getUnsyncedItemsModel getAllModel
  have h1 : (db.filter q).insertionSort keyLE = (db.insertionSort keyLE).filter q :=
    (filter_insertionSort keyLE q db).symm
  rw [h1]
  have h2 : ((db.insertionSort keyLE).filter q).filter (fun item => !item.synced) =
      ((db.insertionSort keyLE).filter (fun item => !item.synced)).filter q := by
    rw [List.filter_filter, List.filter_filter]
    apply List.filter_congr
    intro a _
    exact Bool.and_comm _ _
  rw [h2]
  exact (filter_insertionSort tsLE q
    ((db.insertionSort keyLE).filter (fun item => !item.synced))).symm

/-- Deleting a key from the queue store filters the unsynced view. -/
theorem getUnsynced_deleteById (x : String) (db : List PendingItem) :
    getUnsyncedItemsModel (deleteById x db) =
      (getUnsyncedItemsModel db).filter (fun item => item.id != x) :=
  getUnsynced_filter db (fun item => item.id != x)

/-- Everything the unsynced view presents is unsynced. -/
theorem view_unsynced (db : List PendingItem) :
    ∀ item ∈ getUnsyncedItemsModel db, item.synced = false := by
  intro item hmem
  unfold getUnsyncedItemsModel at hmem
  have h1 : item ∈ (getAllModel db).filter (fun it => !it.synced) :=
    (List.mem_insertionSort tsLE).mp hmem
  have h2 : (!item.synced) = true := (List.mem_filter.mp h1).2
  cases h : item.synced
  · rfl
  · rw [h] at h2
    exact absurd h2 (by decide)

/-- Everything the unsynced view presents is in the store. -/
theorem view_mem (db : List PendingItem) :
    ∀ item ∈ getUnsyncedItemsModel db, item ∈ db := by
  intro item hmem
  unfold getUnsyncedItemsModel at hmem
  have h1 : item ∈ (getAllModel db).filter (fun it => !it.synced) :=
    (List.mem_insertionSort tsLE).mp hmem
  have h2 : item ∈ getAllModel db := List.mem_of_mem_filter h1
  exact (List.mem_insertionSort keyLE).mp h2

/-- Unique queue keys survive into the unsynced view. -/
theorem view_ids_nodup (db : List PendingItem)
    (hnd : (db.map (·.id)).Nodup) :
    ((getUnsyncedItemsModel db).map (·.id)).Nodup := by
  have hall : ((getAllModel db).map (·.id)).Nodup :=
    ((List.perm_insertionSort keyLE db).map (·.id)).symm.nodup hnd
  have hfil : (((getAllModel db).filter (fun it => !it.synced)).map (·.id)).Nodup :=
    List.Nodup.sublist
      (List.Sublist.map (·.id) (List.filter_sublist (getAllModel db))) hall
  exact ((List.perm_insertionSort tsLE
    ((getAllModel db).filter (fun it => !it.synced))).map (·.id)).symm.nodup hfil

/-- Any fetch `syncItem` issues is tagged with the issuing item's id. -/
theorem syncItemModel_call_itemId (server : PendingItem → Bool)
    (item : PendingItem) :
    ∀ c ∈ (syncItemModel server item).1, c.itemId = item.id := by
  intro c hc
  unfold syncItemModel at hc
  cases hty : item.type <;> cases hac : item.action <;> rw [hty, hac] at hc <;>
    dsimp only at hc
  all_goals try split_ifs at hc
  all_goals
    first
      | (simp only [Option.mem_def, Option.some.injEq] at hc
         subst hc
         rfl)
      | simp at hc

/-- Unfolding equation for the drain loop on a non-empty snapshot. -/
theorem drainQueue_cons (server : PendingItem → Bool) (item : PendingItem)
    (rest : List PendingItem) (st : PassState) :
    drainQueue server (item :: rest) st =
      if (syncItemModel server item).2 then
        drainQueue server rest
          { st with
              db := deleteById item.id st.db
              calls := st.calls ++ (syncItemModel server item).1.toList
              syncedCount := st.syncedCount + 1 }
      else { st with calls := st.calls ++ (syncItemModel server item).1.toList } := rfl

/-- The drain loop never touches the optimistic store. -/
theorem drainQueue_store (server : PendingItem → Bool) :
    ∀ (L : List PendingItem) (st : PassState),
      (drainQueue server L st).store = st.store := by
  intro L
  induction L with
  | nil => intro st; rfl
  | cons item rest ih =>
      intro st
      rw [drainQueue_cons]
      by_cases h : (syncItemModel server item).2 = true
      · rw [if_pos h, ih]
      · rw [if_neg h]

/-- Queue records surviving the drain loop are original records, verbatim. -/
theorem drainQueue_db_mem (server : PendingItem → Bool) :
    ∀ (L : List PendingItem) (st : PassState),
      ∀ x ∈ (drainQueue server L st).db, x ∈ st.db := by
  intro L
  induction L with
  | nil => intro st x hx; exact hx
  | cons item rest ih =>
      intro st x hx
      revert hx
      rw [drainQueue_cons]
      by_cases h : (syncItemModel server item).2 = true
      · rw [if_pos h]
        intro hx
        have hx2 := ih _ x hx
        exact List.mem_of_mem_filter hx2
      · rw [if_neg h]
        intro hx
        exact hx

/-- Every fetch recorded by the drain loop was issued by one of the items of
the processed snapshot. -/
theorem drainQueue_calls (server : PendingItem → Bool) :
    ∀ (L : List PendingItem) (st : PassState),
      ∀ c ∈ (drainQueue server L st).calls,
        c ∈ st.calls ∨ ∃ o ∈ L, (syncItemModel server o).1 = some c := by
  intro L
  induction L with
  | nil => intro st c hc; exact Or.inl hc
  | cons item rest ih =>
      intro st c hc
      revert hc
      rw [drainQueue_cons]
      by_cases h : (syncItemModel server item).2 = true
      · rw [if_pos h]
        intro hc
        rcases ih _ c hc with hold | ⟨o, ho, hoc⟩
        · rcases List.mem_append.mp hold with hys | hnew
          · exact Or.inl hys
          · refine Or.inr ⟨item, List.mem_cons_self item rest, ?_⟩
            cases hopt : (syncItemModel server item).1 with
            | none => rw [hopt] at hnew; exact absurd hnew (by simp)
            | some g =>
                rw [hopt] at hnew
                have hcg : c = g := by
                  have := List.mem_singleton.mp (by simpa using hnew)
                  exact this
                rw [hcg]
        · exact Or.inr ⟨o, List.mem_cons_of_mem item ho, hoc⟩
      · rw [if_neg h]
        intro hc
        rcases List.mem_append.mp hc with hys | hnew
        · exact Or.inl hys
        · refine Or.inr ⟨item, List.mem_cons_self item rest, ?_⟩
          cases hopt : (syncItemModel server item).1 with
          | none => rw [hopt] at hnew; exact absurd hnew (by simp)
          | some g =>
              rw [hopt] at hnew
              have hcg : c = g := by
                have := List.mem_singleton.mp (by simpa using hnew)
                exact this
              rw [hcg]

/-- Draining a snapshot whose prefix fully succeeds factors through the
prefix. -/
theorem drainQueue_append (server : PendingItem → Bool) :
    ∀ (pre rest : List PendingItem) (st : PassState),
      (∀ o ∈ pre, (syncItemModel server o).2 = true) →
      drainQueue server (pre ++ rest) st =
        drainQueue server rest (drainQueue server pre st) := by
  intro pre
  induction pre with
  | nil => intro rest st _; rfl
  | cons o os ih =>
      intro rest st hpre
      have ho : (syncItemModel server o).2 = true :=
        hpre o (List.mem_cons_self o os)
      show drainQueue server (o :: (os ++ rest)) st = _
      rw [drainQueue_cons, drainQueue_cons, if_pos ho, if_pos ho]
      exact ih rest _ (fun o' ho' => hpre o' (List.mem_cons_of_mem o ho'))

/-- Unfolding one `syncPending` pass when online with a non-empty snapshot:
the queue and call trace come from the drain loop (plus the final
`clearSyncedItems` filter), and the store is wholesale-reloaded exactly when
at least one item synced. -/
theorem syncPendingModel_online (server : PendingItem → Bool)
    (fetched : FetchedData) (s0 : StoreState) (db : List PendingItem)
    (hne : getUnsyncedItemsModel db ≠ []) :
    (syncPendingModel server true fetched s0 db).db =
      (drainQueue server (getUnsyncedItemsModel db) ⟨db, s0, [], 0⟩).db.filter
        (fun item => !item.synced) ∧
    (syncPendingModel server true fetched s0 db).calls =
      (drainQueue server (getUnsyncedItemsModel db) ⟨db, s0, [], 0⟩).calls ∧
    (syncPendingModel server true fetched s0 db).store =
      (if 0 < (drainQueue server (getUnsyncedItemsModel db) ⟨db, s0, [], 0⟩).syncedCount
        then loadDataModel s0 fetched else s0) := by
  have hEmpty : (getUnsyncedItemsModel db).isEmpty = false := by
    cases h : getUnsyncedItemsModel db with
    | nil => exact absurd h hne
    | cons a l => rfl
  have hstore : (drainQueue server (getUnsyncedItemsModel db) ⟨db, s0, [], 0⟩).store = s0 :=
    drainQueue_store server _ _
  by_cases hsc :
      0 < (drainQueue server (getUnsyncedItemsModel db) ⟨db, s0, [], 0⟩).syncedCount
  · simp only [syncPendingModel, Bool.not_true, Bool.false_eq_true, if_false,
      hEmpty, gt_iff_lt, if_pos hsc, hstore]
    exact ⟨trivial, trivial, trivial⟩
  · simp only [syncPendingModel, Bool.not_true, Bool.false_eq_true, if_false,
      hEmpty, gt_iff_lt, if_neg hsc, hstore]
    exact ⟨trivial, trivial, trivial⟩

/-- A vacuous operation (offline-prefixed target, in a short-circuiting
branch) syncs successfully without issuing any fetch. -/
theorem syncItemModel_vacuous (server : PendingItem → Bool) (item : PendingItem)
    (h : offlineVacuous item) : syncItemModel server item = (none, true) := by
  obtain ⟨hoff, hcase⟩ := h
  rcases hcase with ⟨hty, hac⟩ | ⟨hty, hac, hret⟩
  · rcases hac with hu | hd
    · unfold syncItemModel
      rw [hty, hu]
      show (if dataIdIsOffline item then ((none : Option GatewayCall), true)
        else (some ⟨"PUT", "/api/products", item.id⟩, server item)) = (none, true)
      rw [if_pos hoff]
    · unfold syncItemModel
      rw [hty, hd]
      show (if dataIdIsOffline item then ((none : Option GatewayCall), true)
        else (some ⟨"DELETE", "/api/products", item.id⟩, server item)) = (none, true)
      rw [if_pos hoff]
  · unfold syncItemModel
    rw [hty, hac]
    show (if item.data.isReturn then
        (some ⟨"PATCH", "/api/invoices?action=return", item.id⟩, server item)
      else if dataIdIsOffline item then ((none : Option GatewayCall), true)
      else (some ⟨"DELETE", "/api/invoices", item.id⟩, server item)) = (none, true)
    rw [hret]
    rw [if_neg (by decide : ¬ false = true), if_pos hoff]

/-- C2: with the queue presenting `[op1, op2, op3]`, where `op1`'s gateway
call succeeds and `op2`'s fails, a single pass removes `op1`, leaves the
queue presenting exactly `[op2, op3]` in that order, records exactly the two
calls of `op1` and `op2`, and issues no call for `op3`. -/
theorem c2_halt_on_failure (server : PendingItem → Bool) (fetched : FetchedData)
    (s0 : StoreState) (db : List PendingItem) (op1 op2 op3 : PendingItem)
    (g1 g2 : GatewayCall)
    (hview : getUnsyncedItemsModel db = [op1, op2, op3])
    (hnd : (db.map (·.id)).Nodup)
    (h1 : syncItemModel server op1 = (some g1, true))
    (h2 : syncItemModel server op2 = (some g2, false)) :
    getUnsyncedItemsModel (syncPendingModel server true fetched s0 db).db =
      [op2, op3] ∧
    (syncPendingModel server true fetched s0 db).calls = [g1, g2] ∧
    op3.id ∉ ((syncPendingModel server true fetched s0 db).calls.map (·.itemId)) := by
  have hne : getUnsyncedItemsModel db ≠ [] := by
    rw [hview]
    simp
  obtain ⟨hdb, hcalls, _⟩ := syncPendingModel_online server fetched s0 db hne
  have hvid : ([op1.id, op2.id, op3.id] : List String).Nodup := by
    have hv := view_ids_nodup db hnd
    rw [hview] at hv
    simpa using hv
  have h12 : op1.id ≠ op2.id := by
    intro h
    have hm := (List.nodup_cons.mp hvid).1
    rw [h] at hm
    exact hm (List.mem_cons_self _ _)
  have h13 : op1.id ≠ op3.id := by
    intro h
    have hm := (List.nodup_cons.mp hvid).1
    rw [h] at hm
    exact hm (List.mem_cons_of_mem _ (List.mem_cons_self _ _))
  have h23 : op2.id ≠ op3.id := by
    intro h
    have hm := (List.nodup_cons.mp (List.nodup_cons.mp hvid).2).1
    rw [h] at hm
    exact hm (List.mem_cons_self _ _)
  have hdrain : drainQueue server (getUnsyncedItemsModel db) ⟨db, s0, [], 0⟩ =
      { db := deleteById op1.id db, store := s0, calls := [g1, g2], syncedCount := 1 } := by
    rw [hview, drainQueue_cons, h1]
    rw [if_pos (rfl : ((some g1, true).2 : Bool) = true)]
    rw [drainQueue_cons, h2]
    rw [if_neg Bool.false_ne_true]
    rfl
  have h2s : op2.synced = false :=
    view_unsynced db op2 (by rw [hview]; simp)
  have h3s : op3.synced = false :=
    view_unsynced db op3 (by rw [hview]; simp)
  have hg1 : g1.itemId = op1.id :=
    syncItemModel_call_itemId server op1 g1 (by rw [h1]; rfl)
  have hg2 : g2.itemId = op2.id :=
    syncItemModel_call_itemId server op2 g2 (by rw [h2]; rfl)
  refine ⟨?_, ?_, ?_⟩
  · rw [hdb, hdrain]
    show getUnsyncedItemsModel
      ((deleteById op1.id db).filter (fun item => !item.synced)) = [op2, op3]
    rw [getUnsynced_filter, getUnsynced_deleteById, hview]
    have e1 : (op1.id != op1.id) = false := by simp
    have e2 : (op2.id != op1.id) = true := bne_iff_ne.mpr (Ne.symm h12)
    have e3 : (op3.id != op1.id) = true := bne_iff_ne.mpr (Ne.symm h13)
    simp [List.filter_cons, e1, e2, e3, h2s, h3s]
  · rw [hcalls, hdrain]
  · rw [hcalls, hdrain]
    simp [hg1, hg2]
    exact ⟨Ne.symm h13, Ne.symm h23⟩

/-- C2 witness: three queued product creates where only the first succeeds;
the pass keeps `[op2, op3]` and records exactly the first two calls. -/
theorem c2_halt_on_failure_witness :
    getUnsyncedItemsModel
        (syncPendingModel c2Server true {} {} [c2Op1, c2Op2, c2Op3]).db =
      [c2Op2, c2Op3] ∧
    (syncPendingModel c2Server true {} {} [c2Op1, c2Op2, c2Op3]).calls =
      [⟨"POST", "/api/products", "product_create_1_0.1"⟩,
        ⟨"POST", "/api/products", "product_create_2_0.2"⟩] := by
  have h := c2_halt_on_failure c2Server {} {} [c2Op1, c2Op2, c2Op3]
    c2Op1 c2Op2 c2Op3
    ⟨"POST", "/api/products", "product_create_1_0.1"⟩
    ⟨"POST", "/api/products", "product_create_2_0.2"⟩
    (by decide) (by decide) (by decide) (by decide)
  exact ⟨h.1, h.2.1⟩

/-- C3 counterexample: a product update enqueued before an invoice create in
the same millisecond is presented after it — `getAll` returns IndexedDB key
(id) order, and the stable timestamp sort keeps that order for ties, so the
insertion order `[A, B]` comes back as `[B, A]`. -/
theorem c3_counterexample :
    c3ItemA.timestamp = c3ItemB.timestamp ∧
    getUnsyncedItemsModel [c3ItemA, c3ItemB] = [c3ItemB, c3ItemA] ∧
    getUnsyncedItemsModel [c3ItemA, c3ItemB] ≠ [c3ItemA, c3ItemB] := by
  decide

/-- C3 (amended): when all queued timestamps are equal, `getUnsyncedItems`
returns the unsynced items in ascending id (IndexedDB key) order — insertion
order is preserved only when it happens to coincide with id order. -/
theorem c3_amended_key_order (db : List PendingItem)
    (hts : ∀ a ∈ db, ∀ b ∈ db, a.timestamp = b.timestamp) :
    getUnsyncedItemsModel db =
      (getAllModel db).filter (fun item => !item.synced) := by
  unfold getUnsyncedItemsModel
  apply List.Sorted.insertionSort_eq
  apply List.pairwise_of_forall_mem_list
  intro a ha b hb
  have ha2 : a ∈ db :=
    (List.mem_insertionSort keyLE).mp (List.mem_of_mem_filter ha)
  have hb2 : b ∈ db :=
    (List.mem_insertionSort keyLE).mp (List.mem_of_mem_filter hb)
  show a.timestamp ≤ b.timestamp
  exact le_of_eq (hts a ha2 b hb2)

/-- C3 amended witness: the two same-timestamp items of the counterexample
are presented in id order. -/
theorem c3_amended_key_order_witness :
    getUnsyncedItemsModel [c3ItemA, c3ItemB] =
      (getAllModel [c3ItemA, c3ItemB]).filter (fun item => !item.synced) :=
  c3_amended_key_order [c3ItemA, c3ItemB] (by decide)

/-- C4 counterexample: a queued offline-id invoice delete carrying the
`isReturn` flag is not vacuous — `syncItem` checks `isReturn` first and
issues the PATCH return request despite the offline prefix. -/
theorem c4_counterexample :
    dataIdIsOffline c4ReturnOp = true ∧
    c4ReturnOp.action = ActionKind.delete ∧
    (syncPendingModel trueServer true {} {} [c4ReturnOp]).calls =
      [⟨"PATCH", "/api/invoices?action=return", "invoice_delete_5_0.1"⟩] := by
  decide

/-- C4 (amended): a queued operation with an offline-prefixed target id is
removed by one pass without any network call when it is a product
update/delete or a plain (non-return) invoice delete, provided the pass
reaches it (every earlier snapshot entry succeeds). Invoice updates and
`isReturn` deletes are not covered: the former fail and halt the pass, the
latter issue a network call. -/
theorem c4_amended_short_circuit (server : PendingItem → Bool)
    (fetched : FetchedData) (s0 : StoreState) (db pre post : List PendingItem)
    (op : PendingItem)
    (hview : getUnsyncedItemsModel db = pre ++ op :: post)
    (hnd : (db.map (·.id)).Nodup)
    (hpre : ∀ o ∈ pre, (syncItemModel server o).2 = true)
    (hop : offlineVacuous op) :
    op.id ∉ ((syncPendingModel server true fetched s0 db).db.map (·.id)) ∧
    op.id ∉ ((syncPendingModel server true fetched s0 db).calls.map (·.itemId)) := by
  have hne : getUnsyncedItemsModel db ≠ [] := by
    rw [hview]
    simp
  obtain ⟨hdb, hcalls, _⟩ := syncPendingModel_online server fetched s0 db hne
  have hvac := syncItemModel_vacuous server op hop
  have hopsucc : (syncItemModel server op).2 = true := by rw [hvac]
  have hfactor : drainQueue server (getUnsyncedItemsModel db) ⟨db, s0, [], 0⟩ =
      drainQueue server post
        (drainQueue server [op] (drainQueue server pre ⟨db, s0, [], 0⟩)) := by
    rw [hview, drainQueue_append server pre (op :: post) _ hpre]
    exact drainQueue_append server [op] post _
      (by intro o ho; rw [List.mem_singleton.mp ho]; exact hopsucc)
  constructor
  · intro hmem
    obtain ⟨x, hx, hxid⟩ := List.mem_map.mp hmem
    rw [hdb] at hx
    have hx1 := List.mem_of_mem_filter hx
    rw [hfactor] at hx1
    have hx2 := drainQueue_db_mem server post _ x hx1
    rw [drainQueue_cons, hvac,
      if_pos (rfl : (((none : Option GatewayCall), true).2 : Bool) = true)] at hx2
    have hx3 : x ∈ deleteById op.id
        (drainQueue server pre ⟨db, s0, [], 0⟩).db := hx2
    have hx4 := (List.mem_filter.mp hx3).2
    rw [hxid] at hx4
    simp at hx4
  · intro hmem
    obtain ⟨c, hc, hcid⟩ := List.mem_map.mp hmem
    rw [hcalls] at hc
    rcases drainQueue_calls server _ _ c hc with hinit | ⟨o, ho, hoc⟩
    · exact absurd hinit (List.not_mem_nil c)
    · have hco : c.itemId = o.id :=
        syncItemModel_call_itemId server o c (by rw [hoc]; rfl)
      have hid : o.id = op.id := by rw [← hco, hcid]
      have hovw : o ∈ getUnsyncedItemsModel db := ho
      have hopw : op ∈ getUnsyncedItemsModel db := by
        rw [hview]
        exact List.mem_append.mpr (Or.inr (List.mem_cons_self op post))
      have hinj := List.inj_on_of_nodup_map (view_ids_nodup db hnd)
      have hoeq : o = op := hinj hovw hopw hid
      rw [hoeq, hvac] at hoc
      exact absurd hoc (by simp)

/-- C4 amended witness: a queued update of an offline-created product is
removed without a network call. -/
theorem c4_amended_short_circuit_witness :
    c4wOp.id ∉ ((syncPendingModel trueServer true {} {} [c4wOp]).db.map (·.id)) ∧
    c4wOp.id ∉
      ((syncPendingModel trueServer true {} {} [c4wOp]).calls.map (·.itemId)) :=
  c4_amended_short_circuit trueServer {} {} [c4wOp] [] [] c4wOp
    (by decide) (by decide) (by intro o ho; exact absurd ho (List.not_mem_nil o))
    (by decide)

/-- C1 counterexample: the create for the offline invoice replays
successfully, yet afterwards — before the next queued operation is
processed — the Optimistic Store still holds the entity under `offline_x`
and the remaining queued delete still references `offline_x`: no identifier
is rewritten anywhere. -/
theorem c1_counterexample :
    (syncItemModel trueServer c1OpCreate).2 = true ∧
    (drainQueue trueServer [c1OpCreate] c1Init).db = [c1OpDelete] ∧
    ¬ idsRewritten "offline_x" (drainQueue trueServer [c1OpCreate] c1Init) := by
  decide

/-- C1 (amended): on a successful create replay the operation is only
removed from the queue. The drain loop never modifies the Optimistic Store,
every operation still queued after a pass is one of the originally queued
records verbatim (no payload is rewritten), and the store changes only
through the wholesale post-pass `loadData` reload. -/
theorem c1_amended_no_rewrite (server : PendingItem → Bool) (online : Bool)
    (fetched : FetchedData) (s0 : StoreState) (db : List PendingItem) :
    (∀ (L : List PendingItem) (st : PassState),
      (drainQueue server L st).store = st.store) ∧
    (∀ item ∈ (syncPendingModel server online fetched s0 db).db, item ∈ db) ∧
    ((syncPendingModel server online fetched s0 db).store = s0 ∨
      (syncPendingModel server online fetched s0 db).store = loadDataModel s0 fetched) := by
  refine ⟨fun L st => drainQueue_store server L st, ?_, ?_⟩
  · cases online with
    | false => intro item h; exact h
    | true =>
        by_cases hne : getUnsyncedItemsModel db = []
        · intro item h
          have hid : syncPendingModel server true fetched s0 db = ⟨db, s0, [], 0⟩ := by
            simp [syncPendingModel, hne]
          rw [hid] at h
          exact h
        · intro item h
          obtain ⟨hdb, _, _⟩ := syncPendingModel_online server fetched s0 db hne
          rw [hdb] at h
          exact drainQueue_db_mem server _ _ item (List.mem_of_mem_filter h)
  · cases online with
    | false => exact Or.inl rfl
    | true =>
        by_cases hne : getUnsyncedItemsModel db = []
        · left
          simp [syncPendingModel, hne]
        · obtain ⟨_, _, hstore⟩ := syncPendingModel_online server fetched s0 db hne
          rw [hstore]
          by_cases hsc : 0 < (drainQueue server (getUnsyncedItemsModel db)
              ⟨db, s0, [], 0⟩).syncedCount
          · right
            rw [if_pos hsc]
          · left
            rw [if_neg hsc]

/-- C8 counterexample: with pass 1 parked on an in-flight call for the only
queued op, a second trigger runs, snapshots the same queue and issues a
duplicate network call — there is no single-pass guard. -/
theorem c8_counterexample :
    (runSchedule trueServer c8Start [.trigger 1, .process 1]).p1 =
      PassPhase.awaitCall c2Op1 [] ∧
    (runSchedule trueServer c8Start
        [.trigger 1, .process 1, .trigger 2, .process 2]).calls =
      [(1, c8Call), (2, c8Call)] := by
  decide

/-- C8 (amended): `syncPending` has no in-progress guard: a trigger arriving
while another pass is in any phase whatsoever starts its own full drain,
provided only that the client is online and the unsynced snapshot is
non-empty, and its first call-issuing snapshot entry sends a fetch tagged to
the new pass. -/
theorem c8_amended_no_guard (server : PendingItem → Bool) (s : TwoPassState)
    (item : PendingItem) (rest : List PendingItem) (c : GatewayCall) (ok : Bool)
    (honline : s.online = true) (hidle : s.p2 = PassPhase.idle)
    (hview : getUnsyncedItemsModel s.db = item :: rest)
    (hcall : syncItemModel server item = (some c, ok)) :
    (stepTrigger 2 s).p2 = PassPhase.ready (item :: rest) ∧
    (stepTrigger 2 s).p1 = s.p1 ∧
    (stepProcess server 2 (stepTrigger 2 s)).calls = s.calls ++ [(2, c)] := by
  have hphase : s.phase 2 = PassPhase.idle := by
    show (if 2 = 1 then s.p1 else s.p2) = _
    rw [if_neg (by decide), hidle]
  have htrig : stepTrigger 2 s = { s with p2 := PassPhase.ready (item :: rest) } := by
    unfold stepTrigger
    rw [hphase]
    simp [honline, hview, TwoPassState.setPhase]
  refine ⟨by rw [htrig], by rw [htrig], ?_⟩
  rw [htrig]
  have hphase2 : ({ s with p2 := PassPhase.ready (item :: rest) } : TwoPassState).phase 2 =
      PassPhase.ready (item :: rest) := by
    show (if 2 = 1 then _ else _) = _
    rw [if_neg (by decide)]
  simp [stepProcess, hphase2, hcall, TwoPassState.setPhase]

/-- C8 amended witness: with pass 1 parked mid-pass, the trigger for pass 2
issues the duplicate call. -/
theorem c8_amended_no_guard_witness :
    (stepProcess trueServer 2 (stepTrigger 2 c8MidState)).calls =
      c8MidState.calls ++ [(2, c8Call)] :=
  (c8_amended_no_guard trueServer c8MidState c2Op1 [] c8Call true rfl rfl
    (by decide) rfl).2.2

end KStore
